import Mathlib

/-!
Verification development for the streaming media library processing engine.

The Go sources are shallowly embedded: pure computations become Lean
functions; the filesystem, the subprocess runner and the in-memory job
registry become explicit state / oracle parameters; fallible operations
return `Except` or pair an `Option String` error with the resulting state.
Machine integers are modelled by `Int`; the one computation that a
configuration string can push past the 64-bit boundary — the BANDWIDTH
derivation — models Go's int64 saturation in `strconv.Atoi` and the
two's-complement wraparound of the int multiplication explicitly.
-/

/-! ## String and path helpers (Go standard library fragments) -/

/-- Embeds Go `strings.TrimSuffix`: drops `suffix` from the end of `s`
when present, otherwise returns `s` unchanged. -/
def goTrimSuffix (s suffix : String) : String :=
  if suffix.data.isSuffixOf s.data then
    String.mk (s.data.take (s.data.length - suffix.data.length))
  else s

/-- ASCII lowering of one character, as Go `strings.ToLower` acts on the
ASCII-only file extensions the engine compares against. -/
def goCharToLower (c : Char) : Char :=
  if 'A' ≤ c && c ≤ 'Z' then Char.ofNat (c.toNat + 32) else c

/-- Embeds Go `strings.ToLower` for ASCII input. -/
def goToLower (s : String) : String :=
  String.mk (s.data.map goCharToLower)

/-- Embeds Go `filepath.Base` for slash-separated paths: trailing slashes
are dropped, the last path element is returned, `""` gives `"."` and a
path of only slashes gives `"/"`. -/
def goFilepathBase (p : String) : String :=
  if p = "" then "."
  else
    let chars := p.data
    let trimmed := (chars.reverse.dropWhile (fun c => c = '/')).reverse
    if trimmed = [] then "/"
    else
      let afterSlash := (trimmed.reverse.takeWhile (fun c => c ≠ '/')).reverse
      String.mk afterSlash

/-- Embeds Go `filepath.Ext`: the suffix of the final path element
starting at its final dot, empty when the final element has no dot. -/
def goFilepathExt (p : String) : String :=
  let lastElem := (p.data.reverse.takeWhile (fun c => c ≠ '/')).reverse
  let afterDot := lastElem.reverse.takeWhile (fun c => c ≠ '.')
  if afterDot.length = lastElem.length then ""
  else String.mk ('.' :: afterDot.reverse)

/-- Embeds Go `filepath.Dir` for already-clean slash-separated paths:
everything before the final slash, `"."` when there is no slash. -/
def goFilepathDir (p : String) : String :=
  let chars := p.data
  let beforeSlash := (chars.reverse.dropWhile (fun c => c ≠ '/')).reverse
  if beforeSlash = [] then "."
  else if beforeSlash = ['/'] then "/"
  else String.mk beforeSlash.dropLast

/-- Embeds Go `filepath.Join` for already-clean arguments (the engine only
joins clean directory names and file names). -/
def goFilepathJoin (a b : String) : String :=
  if a = "" then b
  else if b = "" then a
  else a ++ "/" ++ b

/-- Decimal parse underlying `strconv.Atoi`: an optional sign followed by
one or more ASCII digits. `none` models a `strconv` syntax error. -/
def parseDecimal? (s : List Char) : Option Int :=
  let (sign, digits) :=
    match s with
    | '+' :: rest => ((1 : Int), rest)
    | '-' :: rest => ((-1 : Int), rest)
    | _ => ((1 : Int), s)
  if digits = [] then none
  else if digits.all (fun c => c.isDigit) then
    some (sign * (digits.foldl (fun acc c => acc * 10 + (c.toNat - '0'.toNat)) 0 : Nat))
  else none

/-- Largest value of Go's 64-bit `int` (the reference platform's word
size): `2^63 - 1`. -/
def int64MaxI : Int := 9223372036854775807

/-- Smallest value of Go's 64-bit `int`: `-2^63`. -/
def int64MinI : Int := -9223372036854775808

/-- Embeds Go `strconv.Atoi` on the 64-bit reference platform, as the
engine uses it (the returned error is discarded at every call site): the
parsed value on success, `0` on a syntax error, and on a range error the
saturated bound of the appropriate sign — `ParseInt` returns the maximum
magnitude integer of the requested size together with `ErrRange`. -/
def goAtoi (s : String) : Int :=
  match parseDecimal? s.data with
  | none => 0
  | some n =>
    if n > int64MaxI then int64MaxI
    else if n < int64MinI then int64MinI
    else n

/-- Two's-complement wraparound of Go's 64-bit signed `int` arithmetic. -/
def wrap64 (x : Int) : Int :=
  (x + 9223372036854775808) % 18446744073709551616 - 9223372036854775808

/-! ## Configuration and transcoder data model -/

/-- Embeds the configuration fields the engine reads (the repository keeps
them in `Config`/`ServerConfig`/`MediaConfig`/`LibraryConfig`; they are
flattened here since the engine only ever reads leaf fields). -/
structure GoConfig where
  transcodePreset : String
  segmentFormat : String
  segmentDuration : Int
  playlistEntries : Int
  mediaDir : String
  cacheDir : String
  processingThreads : Int
deriving DecidableEq

/-- Embeds `transcoder.VideoJob`. -/
structure VideoJob where
  sourceFile : String
  outputPath : String
  width : Int
  height : Int
  bitrate : String
  segmentDuration : Int
deriving DecidableEq

/-- Outcome of one subprocess run: `ok` models a zero exit status; `fail`
carries the `%v` rendering of the exec error (for example
`"exit status 1"`) and the captured combined standard output/error text. -/
inductive ExecOutcome where
  | ok
  | fail (exitErr : String) (combinedOutput : String)
deriving DecidableEq

/-- Oracles for the effectful operations the transcoder performs:
`ffmpeg` maps an argument list to the subprocess outcome, `mkdir` and
`writeFile` return `some errText` to model an I/O failure and `none` for
success. -/
structure World where
  ffmpeg : List String → ExecOutcome
  mkdir : String → Option String
  writeFile : String → String → Option String

/-- Observable effects of a run: the argument lists of the subprocess
invocations that actually happened, and the files written (path paired
with content). -/
structure Effects where
  invocations : List (List String)
  writes : List (String × String)
deriving DecidableEq

/-- No effects. -/
def noEffects : Effects := ⟨[], []⟩

/-- Concatenation of effect logs in execution order. -/
def mergeEffects (a b : Effects) : Effects :=
  ⟨a.invocations ++ b.invocations, a.writes ++ b.writes⟩

/-- Embeds `transcoder.Manager.activeJobs`: the set of job keys currently
marked active, maintained under `tm.mutex` in the source. -/
structure TMState where
  activeJobs : List String
deriving DecidableEq

/-- Embeds the job-key construction at the top of `TranscodeToHLS`:
`fmt.Sprintf("%s_%d_%d_%s", job.SourceFile, job.Width, job.Height, job.Bitrate)`. -/
def jobKeyOf (job : VideoJob) : String :=
  job.sourceFile ++ "_" ++ toString job.width ++ "_" ++ toString job.height
    ++ "_" ++ job.bitrate

/-- Embeds the FFmpeg argument list built by `TranscodeToHLS` (config.go
lines 288-317), in order: the fixed codec/preset block, the optional
scale filter, the optional video bitrate, then the HLS block. -/
def buildFFmpegArgs (cfg : GoConfig) (job : VideoJob) : List String :=
  let args := ["-i", job.sourceFile,
    "-c:v", "libx264",
    "-crf", "23",
    "-preset", cfg.transcodePreset,
    "-c:a", "aac",
    "-b:a", "128k"]
  let args := if job.width > 0 && job.height > 0 then
      args ++ ["-vf", "scale=" ++ toString job.width ++ ":" ++ toString job.height]
    else args
  let args := if job.bitrate ≠ "" then args ++ ["-b:v", job.bitrate] else args
  args ++ ["-f", "hls",
    "-hls_time", toString job.segmentDuration,
    "-hls_segment_type", cfg.segmentFormat,
    "-hls_list_size", toString cfg.playlistEntries,
    "-hls_playlist_type", "event",
    "-hls_segment_filename", goTrimSuffix job.outputPath ".m3u8" ++ "%03d.ts",
    job.outputPath]

/-- Embeds `Manager.TranscodeToHLS`, sequentially: the duplicate check
(`IsJobActive`) returns `nil` for an already-active key without doing
anything; otherwise the key is marked active, the output directory is
created, the subprocess runs, and the deferred `SetJobActive(key, false)`
restores the registry on every exit path (so the returned registry equals
the input one). A subprocess failure is wrapped exactly as in the source:
`fmt.Errorf("transcoding failed: %v", err)` — the captured output is only
logged, never part of the returned error. -/
def transcodeToHLS (cfg : GoConfig) (w : World) (st : TMState) (job : VideoJob) :
    Except String Unit × Effects × TMState :=
  let jobKey := jobKeyOf job
  if st.activeJobs.contains jobKey then
    (Except.ok (), noEffects, st)
  else
    match w.mkdir (goFilepathDir job.outputPath) with
    | some e => (Except.error e, noEffects, st)
    | none =>
      let args := buildFFmpegArgs cfg job
      match w.ffmpeg args with
      | ExecOutcome.ok => (Except.ok (), ⟨[args], []⟩, st)
      | ExecOutcome.fail exitErr _out =>
        (Except.error ("transcoding failed: " ++ exitErr), ⟨[args], []⟩, st)

/-! ## Master playlist generation -/

/-- One quality tier as the source represents it: a
`map[string]string` with `width`, `height` and `bitrate` keys. -/
structure Quality where
  width : String
  height : String
  bitrate : String
deriving DecidableEq

/-- Embeds the bandwidth computation inside `GenerateHLSMasterPlaylist`:
`bandwidthKbps, _ := strconv.Atoi(strings.TrimSuffix(bitrate, "k"))`
followed by `bandwidthBps := bandwidthKbps * 1000`, the multiplication
performed in Go's wrapping 64-bit `int`. -/
def bandwidthBpsOf (bitrate : String) : Int :=
  wrap64 (goAtoi (goTrimSuffix bitrate "k") * 1000)

/-- Embeds the playlist text built by `GenerateHLSMasterPlaylist`: the
header, then for every quality in order one `#EXT-X-STREAM-INF` line and
one variant-file line. -/
def masterContent (videoFile : String) (qualities : List Quality) : String :=
  qualities.foldl
    (fun acc q =>
      acc
        ++ ("#EXT-X-STREAM-INF:BANDWIDTH=" ++ toString (bandwidthBpsOf q.bitrate)
          ++ ",RESOLUTION=" ++ q.width ++ "x" ++ q.height
          ++ ",NAME=\"" ++ q.height ++ "p\"" ++ "\n")
        ++ (goFilepathBase videoFile ++ "_" ++ q.height ++ ".m3u8" ++ "\n"))
    ("#EXTM3U\n" ++ "#EXT-X-VERSION:3\n")

/-- Embeds `GenerateHLSMasterPlaylist`: builds the playlist text for all
the qualities it is handed (it receives no per-variant success
information and checks no file existence), then writes it to
`outputDir/Base(videoFile).m3u8`. -/
def generateHLSMasterPlaylist (videoFile outputDir : String)
    (qualities : List Quality) (w : World) : Except String String × Effects :=
  let content := masterContent videoFile qualities
  let masterPath := goFilepathJoin outputDir (goFilepathBase videoFile ++ ".m3u8")
  match w.writeFile masterPath content with
  | some e => (Except.error e, noEffects)
  | none => (Except.ok masterPath, ⟨[], [(masterPath, content)]⟩)

/-- The quality tiers hardcoded in `PrepareVideo` (the 480p and 360p
tiers are commented out in the source). -/
def hlsQualities : List Quality := [⟨"1280", "720", "2500k"⟩]

/-- Output directory `PrepareVideo` derives for a source path: the cache
directory joined with the source file name minus its extension. -/
def outputDirFor (cfg : GoConfig) (videoPath : String) : String :=
  let videoFileName := goFilepathBase videoPath
  goFilepathJoin cfg.cacheDir (goTrimSuffix videoFileName (goFilepathExt videoFileName))

/-- Embeds `Manager.PrepareVideo`: create the output directory, launch
one `TranscodeToHLS` per quality (the goroutines are serialised here in
list order; any returned error is only logged and discarded), wait, then
unconditionally generate the master playlist over the full quality list. -/
def prepareVideo (cfg : GoConfig) (w : World) (st : TMState) (videoPath : String) :
    Except String String × Effects × TMState :=
  let videoFileName := goFilepathBase videoPath
  let outputDir := outputDirFor cfg videoPath
  match w.mkdir outputDir with
  | some e => (Except.error e, noEffects, st)
  | none =>
    let folded := hlsQualities.foldl
      (fun (acc : Effects × TMState) q =>
        let width := goAtoi q.width
        let height := goAtoi q.height
        let outputFile := goFilepathJoin outputDir (videoFileName ++ "_" ++ q.height ++ ".m3u8")
        let job : VideoJob :=
          ⟨videoPath, outputFile, width, height, q.bitrate, cfg.segmentDuration⟩
        let r := transcodeToHLS cfg w acc.2 job
        (mergeEffects acc.1 r.2.1, r.2.2))
      (noEffects, st)
    match generateHLSMasterPlaylist videoFileName outputDir hlsQualities w with
    | (Except.error e, geff) => (Except.error e, mergeEffects folded.1 geff, folded.2)
    | (Except.ok masterPath, geff) =>
      (Except.ok masterPath, mergeEffects folded.1 geff, folded.2)

/-! ## Catalog store (internal/database over sqlite) -/

/-- Embeds `database.VideoStatus`. -/
inductive VideoStatus where
  | pending
  | processing
  | ready
  | error
deriving DecidableEq

/-- One row of the `videos` table. `errorMessage` is `none` when the SQL
`error_message` column is NULL (the schema declares it plain `TEXT` with
no default, and `AddVideo` does not set it). -/
structure VideoRow where
  id : Int
  filename : String
  path : String
  size : Int
  duration : Int
  status : VideoStatus
  errorMessage : Option String
deriving DecidableEq

/-- The `videos` table: rows in rowid (insertion) order plus the next
AUTOINCREMENT id. -/
structure Catalog where
  rows : List VideoRow
  nextId : Int
deriving DecidableEq

/-- A fresh database: no rows, AUTOINCREMENT starts at 1. -/
def emptyCatalog : Catalog := ⟨[], 1⟩

/-- Embeds the Go-side `database.Video` struct that `Scan` fills: every
field, `ErrorMessage` included, is a plain (non-nullable) Go value. -/
structure GoVideo where
  id : Int
  filename : String
  path : String
  size : Int
  duration : Int
  status : VideoStatus
  errorMessage : String
deriving DecidableEq

/-- Embeds `database/sql` row conversion for the queries that scan
`error_message` into a Go `string`: a NULL column cannot be converted and
`Scan` fails (message as `database/sql` renders it). -/
def scanRow (r : VideoRow) : Except String GoVideo :=
  match r.errorMessage with
  | none =>
    Except.error ("sql: Scan error on column index 6, name \"error_message\": "
      ++ "converting NULL to string is unsupported")
  | some e => Except.ok ⟨r.id, r.filename, r.path, r.size, r.duration, r.status, e⟩

/-- Embeds `DB.VideoExists`: `SELECT COUNT(*) FROM videos WHERE path = ?`
compared against zero (scans only an integer, so no NULL issue). -/
def videoExists (c : Catalog) (path : String) : Bool :=
  c.rows.any (fun r => r.path == path)

/-- Embeds `DB.AddVideo`: inserts `(filename, path, size, 'pending')`;
the UNIQUE constraint on `path` rejects a duplicate. `error_message` is
not part of the INSERT, so the new row stores NULL there. -/
def addVideo (c : Catalog) (filename path : String) (size : Int) :
    Except String (Int × Catalog) :=
  if c.rows.any (fun r => r.path == path) then
    Except.error "failed to add video: UNIQUE constraint failed: videos.path"
  else
    Except.ok (c.nextId,
      ⟨c.rows ++ [⟨c.nextId, filename, path, size, 0, VideoStatus.pending, none⟩],
        c.nextId + 1⟩)

/-- Embeds `DB.GetVideoByPath`: the first row matching `path` is scanned
(an absent row is `nil, nil`, i.e. `ok none`); a scan failure is wrapped
as in the source. -/
def getVideoByPath (c : Catalog) (path : String) : Except String (Option GoVideo) :=
  match c.rows.find? (fun r => r.path == path) with
  | none => Except.ok none
  | some r =>
    match scanRow r with
    | Except.error e => Except.error ("failed to get video by path: " ++ e)
    | Except.ok v => Except.ok (some v)

/-- Row-by-row scan loop shared by the listing queries; the first scan
failure aborts with the source's wrapping. -/
def scanRows : List VideoRow → Except String (List GoVideo)
  | [] => Except.ok []
  | r :: rs =>
    match scanRow r with
    | Except.error e => Except.error ("failed to scan video row: " ++ e)
    | Except.ok v =>
      match scanRows rs with
      | Except.error e => Except.error e
      | Except.ok vs => Except.ok (v :: vs)

/-- Embeds `DB.ListVideosByStatus` (the `ORDER BY filename` clause is
not modelled; no claim depends on the listing order). -/
def listVideosByStatus (c : Catalog) (status : VideoStatus) :
    Except String (List GoVideo) :=
  scanRows (c.rows.filter (fun r => r.status == status))

/-- Embeds `DB.GetPendingVideos`. -/
def getPendingVideos (c : Catalog) : Except String (List GoVideo) :=
  listVideosByStatus c VideoStatus.pending

/-- Embeds `DB.UpdateVideoStatus`: a single-row UPDATE of status and
error_message keyed by id (`updated_at` is not modelled). -/
def updateVideoStatus (c : Catalog) (id : Int) (status : VideoStatus)
    (errorMsg : String) : Catalog :=
  ⟨c.rows.map (fun r =>
      if r.id == id then
        { r with
          status := status
          errorMessage := some errorMsg }
      else r),
    c.nextId⟩

/-- Embeds `DB.SetVideoProcessing`. -/
def setVideoProcessing (c : Catalog) (id : Int) : Catalog :=
  updateVideoStatus c id VideoStatus.processing ""

/-- Embeds `DB.SetVideoReady`: status, duration and an empty (non-NULL)
error_message in one UPDATE. -/
def setVideoReady (c : Catalog) (id : Int) (duration : Int) : Catalog :=
  ⟨c.rows.map (fun r =>
      if r.id == id then
        { r with
          status := VideoStatus.ready
          duration := duration
          errorMessage := some "" }
      else r),
    c.nextId⟩

/-- Embeds `DB.SetVideoError`. -/
def setVideoError (c : Catalog) (id : Int) (errorMsg : String) : Catalog :=
  updateVideoStatus c id VideoStatus.error errorMsg

/-! ## Library manager: scanner and worker pool (internal/library) -/

/-- Embeds `library.isVideoFile`. -/
def isVideoFile (ext : String) : Bool :=
  [".mp4", ".mkv", ".avi", ".mov", ".webm", ".flv", ".wmv"].any (fun e => ext == e)

/-- The body of the `ScanLibrary` walk callback for a regular file that
was visited without error: extension gate, `VideoExists` check, then
`AddVideo` whose failure is logged and swallowed (`return nil`). The
store itself is modelled as reachable (query errors other than the scan
conversion failures are not modelled). -/
def scanStep (c : Catalog) (path name : String) (size : Int) : Catalog :=
  if !isVideoFile (goToLower (goFilepathExt name)) then c
  else if videoExists c path then c
  else
    match addVideo c name path size with
    | Except.error _ => c
    | Except.ok (_, c') => c'

mutual
/-- A node of the media directory tree. `err` is the error the walk
reports when visiting this node (a failed `lstat`, or for a directory a
failed read of its entries): `filepath.Walk` hands exactly one callback
invocation that error. -/
inductive FSNode where
  | file (name : String) (size : Int) (err : Option String)
  | dir (name : String) (err : Option String) (children : FSList)

/-- Children of a directory, in the (sorted) order `filepath.Walk`
produces. -/
inductive FSList where
  | nil
  | cons (head : FSNode) (tail : FSList)
end

/-- The name of a node (used to build the joined path `Walk` hands the
callback). -/
def FSNode.name : FSNode → String
  | FSNode.file n _ _ => n
  | FSNode.dir n _ _ => n

mutual
/-- Embeds `filepath.Walk` specialised to the `ScanLibrary` callback:
the callback returns the walk error it is handed (aborting the walk), a
directory itself contributes nothing, and a clean file goes through
`scanStep`. The pair returns the callback error (if any) together with
the catalog state reached so far — database inserts made before an abort
persist, as they do in the source. The callback never returns
`filepath.SkipDir`, so that branch of `Walk` is dead and not modelled. -/
def walkNode (fullPath : String) (node : FSNode) (c : Catalog) :
    Option String × Catalog :=
  match node with
  | FSNode.file name size err =>
    match err with
    | some e => (some e, c)
    | none => (none, scanStep c fullPath name size)
  | FSNode.dir _name err children =>
    match err with
    | some e => (some e, c)
    | none => walkList fullPath children c

/-- Walks the children of a directory in order, stopping at the first
error as `filepath.Walk` does when the callback returns it. -/
def walkList (dirPath : String) (children : FSList) (c : Catalog) :
    Option String × Catalog :=
  match children with
  | FSList.nil => (none, c)
  | FSList.cons n rest =>
    let full := goFilepathJoin dirPath (FSNode.name n)
    match walkNode full n c with
    | (some e, c') => (some e, c')
    | (none, c') => walkList dirPath rest c'
end

/-- Embeds `Manager.ScanLibrary`: walk the configured media directory;
the walk's error, when there is one, is returned to the caller. -/
def scanLibrary (cfg : GoConfig) (root : FSNode) (c : Catalog) :
    Option String × Catalog :=
  walkNode cfg.mediaDir root c

/-- Embeds `Manager.processVideo`: transition the entry to Processing,
run `PrepareVideo`, and on its error transition to Error with that
error's text, otherwise to Ready with duration 0. (The single-row UPDATEs
scan no columns, so the NULL-conversion failure of the row-reading
queries cannot occur here; store update errors are not modelled, matching
the source where they are only logged.) -/
def processVideo (cfg : GoConfig) (w : World) (st : TMState) (c : Catalog)
    (video : GoVideo) : Catalog × TMState × Effects :=
  let c1 := setVideoProcessing c video.id
  match prepareVideo cfg w st video.path with
  | (Except.error e, eff, st') => (setVideoError c1 video.id e, st', eff)
  | (Except.ok _masterPath, eff, st') => (setVideoReady c1 video.id 0, st', eff)

/-- State threaded through one worker-pool pass: the catalog, the job
registry and the accumulated effects. -/
structure RunState where
  cat : Catalog
  tm : TMState
  eff : Effects
deriving DecidableEq

/-- One worker handling one video from the shared job channel. -/
def processOne (cfg : GoConfig) (w : World) (s : RunState) (v : GoVideo) : RunState :=
  let r := processVideo cfg w s.tm s.cat v
  ⟨r.1, r.2.1, mergeEffects s.eff r.2.2⟩

/-- The sublist of `xs` at positions congruent to `i` modulo `n`: the
videos worker `i` takes when the workers consume the shared channel in
lock step. -/
def pickCongruent (xs : List GoVideo) (i n : Nat) : List GoVideo :=
  (xs.enum.filter (fun p => p.1 % n == i)).map (fun p => p.2)

/-- The per-worker job assignment for `n` workers (one admissible
schedule of the shared-channel consumption; with one worker it is the
channel order itself). -/
def roundRobin (n : Nat) (xs : List GoVideo) : List (List GoVideo) :=
  (List.range n).map (fun i => pickCongruent xs i n)

/-- Embeds `Manager.ProcessPendingVideos`: list the Pending entries (a
store failure aborts with the wrapped error), return immediately when
there are none, otherwise clamp the configured thread count to at least
one worker and drain the queue. The concurrent workers are serialised
worker-by-worker over the round-robin assignment; each entry is handed
to exactly one worker, as each channel element is received exactly once. -/
def processPendingVideos (cfg : GoConfig) (w : World) (s : RunState) :
    Except String Unit × RunState :=
  match getPendingVideos s.cat with
  | Except.error e => (Except.error ("failed to get pending videos: " ++ e), s)
  | Except.ok pending =>
    if pending.length = 0 then (Except.ok (), s)
    else
      let numWorkers : Int := if cfg.processingThreads ≤ 0 then 1 else cfg.processingThreads
      let schedule := (roundRobin numWorkers.toNat pending).flatten
      (Except.ok (), schedule.foldl (processOne cfg w) s)

/-! ## Interleaving model of the job registry (TranscodeToHLS dedup)

`Manager.activeJobs` is guarded by `tm.mutex`: each of `IsJobActive` and
`SetJobActive` is one atomic (lock-protected) operation. `TranscodeToHLS`
performs, in order: the `IsJobActive` check, then — in a separate
critical section — `SetJobActive(key, true)`, the subprocess run, and the
deferred `SetJobActive(key, false)`. Two goroutines running
`TranscodeToHLS` with the same key therefore interleave these four atomic
steps arbitrarily; the model below executes a schedule (a list of thread
indices) over two such threads and counts subprocess invocations. -/

/-- Program counter of one `TranscodeToHLS` call restricted to its
registry interactions and the subprocess run. -/
inductive RacePc where
  | check
  | mark
  | run
  | unmark
  | done
deriving DecidableEq

/-- Shared state of two concurrent `TranscodeToHLS` calls with one job
key: the registry content for that key, both program counters and the
number of subprocess invocations so far. -/
structure RaceState where
  keyActive : Bool
  pcs : List RacePc
  invocations : Nat
deriving DecidableEq

/-- One atomic step of thread `t`: the `IsJobActive` read (skipping to
`done` when the key is active — the early `return nil`), the
`SetJobActive(true)` write, the subprocess run, or the deferred
`SetJobActive(false)` write. -/
def raceStep (st : RaceState) (t : Nat) : RaceState :=
  match st.pcs.get? t with
  | none => st
  | some pc =>
    match pc with
    | RacePc.check =>
      if st.keyActive then { st with pcs := st.pcs.set t RacePc.done }
      else { st with pcs := st.pcs.set t RacePc.mark }
    | RacePc.mark =>
      { st with
        keyActive := true
        pcs := st.pcs.set t RacePc.run }
    | RacePc.run =>
      { st with
        invocations := st.invocations + 1
        pcs := st.pcs.set t RacePc.unmark }
    | RacePc.unmark =>
      { st with
        keyActive := false
        pcs := st.pcs.set t RacePc.done }
    | RacePc.done => st

/-- Runs a schedule over two `TranscodeToHLS` calls that share a job key,
both starting at the `IsJobActive` check with the key inactive. -/
def raceRun (sched : List Nat) : RaceState :=
  sched.foldl raceStep ⟨false, [RacePc.check, RacePc.check], 0⟩

/-! ## Concrete fixtures -/

/-- A world whose filesystem operations succeed, with the subprocess
outcome left as a parameter. -/
def benignWorld (f : List String → ExecOutcome) : World :=
  ⟨f, fun _ => none, fun _ _ => none⟩

/-- Every subprocess invocation succeeds. -/
def okWorld : World := benignWorld (fun _ => ExecOutcome.ok)

/-- Every subprocess invocation exits with status 1 and captured output
`"codec not found"` (the spec's end-to-end failure scenario). -/
def failWorld : World :=
  benignWorld (fun _ => ExecOutcome.fail "exit status 1" "codec not found")

/-- The repository's default configuration values, with two processing
threads as the librarian flag defaults to. -/
def cfg0 : GoConfig := ⟨"ultrafast", "mpegts", 10, 6, "media", "cache", 2⟩

/-- A media tree holding one readable video file. -/
def sampleTree : FSNode :=
  FSNode.dir "media" none (FSList.cons (FSNode.file "a.mp4" 100 none) FSList.nil)

/-- A media tree whose first video file fails to stat while the root
directory and a later video file are perfectly readable. -/
def errTree : FSNode :=
  FSNode.dir "media" none
    (FSList.cons (FSNode.file "a.mp4" 100 (some "permission denied"))
      (FSList.cons (FSNode.file "b.mp4" 50 none) FSList.nil))

/-- The catalog entry for `media/a.mp4` as the worker pool sees it. -/
def sampleVideo : GoVideo :=
  ⟨1, "a.mp4", "media/a.mp4", 100, 0, VideoStatus.pending, ""⟩

/-- The single quality tier's transcode job for `media/a.mp4` under the
default configuration. -/
def sampleJob : VideoJob :=
  ⟨"media/a.mp4", "cache/a/a.mp4_720.m3u8", 1280, 720, "2500k", 10⟩

/-! ## C10 — bandwidth derivation in the master playlist -/

/-- The BANDWIDTH value exactly as claim C10 words it: 1000 times the
integer obtained by stripping a trailing `k` from the bitrate label, and
0 when the stripped label is not a decimal integer (this definition
follows the claim's words, for comparison against `bandwidthBpsOf`,
which is embedded from the source). -/
def claimedBandwidthOf (bitrate : String) : Int :=
  match parseDecimal? (goTrimSuffix bitrate "k").data with
  | some n => 1000 * n
  | none => 0

/-- Membership in the 64-bit signed integer range. -/
def int64Range (x : Int) : Prop :=
  -9223372036854775808 ≤ x ∧ x ≤ 9223372036854775807

/-- 64-bit wraparound is the identity inside the 64-bit range. -/
theorem wrap64_eq_of_range (x : Int) (h : int64Range x) : wrap64 x = x := by
  unfold wrap64
  unfold int64Range at h
  omega

/-- C10 counterexample: the bitrate label `"99999999999999999k"` parses
into int64 without any range error, but the `* 1000` wraps in the
source's 64-bit `int`, so the BANDWIDTH written is `7766279631452240920`
— neither 1000 times the stripped integer (`99999999999999999000`) nor
the 0 the claim reserves for parse failures. -/
theorem C10_counterexample :
    parseDecimal? (goTrimSuffix "99999999999999999k" "k").data
        = some 99999999999999999
      ∧ bandwidthBpsOf "99999999999999999k" = 7766279631452240920
      ∧ claimedBandwidthOf "99999999999999999k" = 99999999999999999000
      ∧ bandwidthBpsOf "99999999999999999k"
        ≠ claimedBandwidthOf "99999999999999999k"
      ∧ bandwidthBpsOf "99999999999999999k" ≠ 0 := by
  refine ⟨by decide, by decide, by decide, by decide, by decide⟩

/-- C10 as amended: whenever Atoi's result times 1000 fits in int64 —
which covers every label whose stripped value parses within range and
keeps the product representable, in particular every realistic bitrate
label — the BANDWIDTH rendered into each stream-info line
(`bandwidthBpsOf`) equals the claim-worded value `claimedBandwidthOf`:
1000 times the stripped decimal integer, and 0 when the stripped label
is not a decimal integer (the parse error is discarded). Outside that
range the source saturates in `Atoi` (range error, also discarded) and
wraps in the multiplication. -/
theorem C10_amended_bandwidth (b : String) :
    (int64Range (goAtoi (goTrimSuffix b "k") * 1000) →
      bandwidthBpsOf b = claimedBandwidthOf b)
      ∧ (parseDecimal? (goTrimSuffix b "k").data = none → bandwidthBpsOf b = 0) := by
  constructor
  · intro hr
    cases hp : parseDecimal? (goTrimSuffix b "k").data with
    | none =>
      unfold bandwidthBpsOf claimedBandwidthOf goAtoi
      rw [hp]
      decide
    | some n =>
      have hsat : goAtoi (goTrimSuffix b "k") = n := by
        unfold goAtoi
        rw [hp]
        by_cases h1 : n > int64MaxI
        · exfalso
          unfold goAtoi at hr
          rw [hp] at hr
          simp only [if_pos h1] at hr
          unfold int64Range int64MaxI at hr
          omega
        · by_cases h2 : n < int64MinI
          · exfalso
            unfold goAtoi at hr
            rw [hp] at hr
            simp only [if_neg h1, if_pos h2] at hr
            unfold int64Range int64MinI at hr
            omega
          · simp [h1, h2]
      rw [hsat] at hr
      unfold bandwidthBpsOf claimedBandwidthOf
      rw [hp, hsat, wrap64_eq_of_range _ hr, Int.mul_comm]
  · intro hp
    unfold bandwidthBpsOf goAtoi
    rw [hp]
    decide

/-- Witness for C10 as amended: the repository's own label `"2500k"`
discharges the in-range hypothesis, and `"xk"` the parse-failure one. -/
theorem C10_amended_bandwidth_witness :
    (int64Range (goAtoi (goTrimSuffix "2500k" "k") * 1000)
        ∧ bandwidthBpsOf "2500k" = claimedBandwidthOf "2500k")
      ∧ (parseDecimal? (goTrimSuffix "xk" "k").data = none
        ∧ bandwidthBpsOf "xk" = 0) :=
  ⟨⟨by unfold int64Range; decide,
      (C10_amended_bandwidth "2500k").1 (by unfold int64Range; decide)⟩,
    ⟨by decide, (C10_amended_bandwidth "xk").2 (by decide)⟩⟩

/-! ## C3 — job dedup under concurrency -/

/-- C3: the dedup is not race-free. The claim asserts that two concurrent
`TranscodeToHLS` calls with an identical key produce exactly one
subprocess invocation because the active-check and the mark-active step
are atomic with respect to each other. In the source they are two
separate critical sections, and the schedule in which both goroutines
pass the `IsJobActive` check before either reaches `SetJobActive`
launches the subprocess twice; an overlapping schedule in which the
second check happens after the first mark yields one invocation, showing
it is precisely the check/mark gap that breaks the property. -/
theorem C3_race_two_invocations :
    (raceRun [0, 1, 0, 0, 0, 1, 1, 1]).invocations = 2
      ∧ (raceRun [0, 0, 1, 0, 0]).invocations = 1 := by
  constructor
  · rfl
  · rfl

/-! ## C6 — lookup after insertion -/

/-- C6: the code contradicts the claim. Scanning one readable video file
inserts exactly one Pending row with the observed size — but with a NULL
`error_message` column, so the subsequent `GetVideoByPath` (and every
other row-reading query, `GetPendingVideos` included) fails with a
`database/sql` Scan conversion error instead of returning the entry. -/
theorem C6_lookup_scan_error :
    (scanLibrary cfg0 sampleTree emptyCatalog).2.rows
        = [⟨1, "a.mp4", "media/a.mp4", 100, 0, VideoStatus.pending, none⟩]
      ∧ getVideoByPath (scanLibrary cfg0 sampleTree emptyCatalog).2 "media/a.mp4"
        = Except.error ("failed to get video by path: "
          ++ "sql: Scan error on column index 6, name \"error_message\": "
          ++ "converting NULL to string is unsupported")
      ∧ getPendingVideos (scanLibrary cfg0 sampleTree emptyCatalog).2
        = Except.error ("failed to scan video row: "
          ++ "sql: Scan error on column index 6, name \"error_message\": "
          ++ "converting NULL to string is unsupported") := by
  refine ⟨rfl, rfl, rfl⟩

/-! ## C7 — worker-count clamp -/

/-- C7: a worker count of zero or less behaves exactly as a worker count
of one — the clamp in `ProcessPendingVideos` makes the two runs equal in
result, catalog state, registry state and effects, for every catalog,
world and configuration. -/
theorem C7_worker_clamp (cfg : GoConfig) (w : World) (s : RunState) (n : Int)
    (hn : n ≤ 0) :
    processPendingVideos { cfg with processingThreads := n } w s
      = processPendingVideos { cfg with processingThreads := 1 } w s := by
  unfold processPendingVideos
  cases getPendingVideos s.cat with
  | error e => rfl
  | ok pending =>
    simp only
    split
    · rfl
    · have h1 : ((if (n : Int) ≤ 0 then (1 : Int) else n)) = 1 := if_pos hn
      have h2 : ((if (1 : Int) ≤ 0 then (1 : Int) else 1)) = 1 := by norm_num
      simp only [h1, h2]
      rfl

/-- Witness for C7 at `n = 0` over the default configuration, a
successful world and a catalog holding one scannable pending entry. -/
theorem C7_worker_clamp_witness :
    (0 : Int) ≤ 0
      ∧ processPendingVideos { cfg0 with processingThreads := 0 } okWorld
          ⟨⟨[⟨1, "a.mp4", "media/a.mp4", 100, 0, VideoStatus.pending, some ""⟩], 2⟩,
            ⟨[]⟩, noEffects⟩
        = processPendingVideos { cfg0 with processingThreads := 1 } okWorld
          ⟨⟨[⟨1, "a.mp4", "media/a.mp4", 100, 0, VideoStatus.pending, some ""⟩], 2⟩,
            ⟨[]⟩, noEffects⟩ :=
  ⟨le_refl 0, C7_worker_clamp cfg0 okWorld _ 0 (le_refl 0)⟩

/-! ## C9 — duplicate jobs return nil -/

/-- C9: a `TranscodeToHLS` call whose job key is already active returns
`nil` at once — no subprocess invocation, no write, no registry change
and no check of the expected output file (the embedding performs no
filesystem read anywhere because the source performs none) — and a
completed successful transcode returns the very same `nil`, so the
caller cannot distinguish the two. -/
theorem C9_duplicate_returns_nil (cfg : GoConfig) (w : World) (st : TMState)
    (job : VideoJob) :
    transcodeToHLS cfg w ⟨jobKeyOf job :: st.activeJobs⟩ job
        = (Except.ok (), noEffects, ⟨jobKeyOf job :: st.activeJobs⟩)
      ∧ (st.activeJobs.contains (jobKeyOf job) = false →
          w.mkdir (goFilepathDir job.outputPath) = none →
          w.ffmpeg (buildFFmpegArgs cfg job) = ExecOutcome.ok →
          transcodeToHLS cfg w st job
            = (Except.ok (), ⟨[buildFFmpegArgs cfg job], []⟩, st)) := by
  constructor
  · unfold transcodeToHLS
    simp
  · intro hact hmk hff
    have hnot : jobKeyOf job ∉ st.activeJobs := by simpa using hact
    unfold transcodeToHLS
    simp [hnot, hmk, hff]

/-- Witness for C9: the sample job under the default configuration, with
the key active (first conjunct) and inactive over a succeeding world
(second conjunct, all three hypotheses discharged by evaluation). -/
theorem C9_duplicate_returns_nil_witness :
    transcodeToHLS cfg0 okWorld ⟨[jobKeyOf sampleJob]⟩ sampleJob
        = (Except.ok (), noEffects, ⟨[jobKeyOf sampleJob]⟩)
      ∧ transcodeToHLS cfg0 okWorld ⟨[]⟩ sampleJob
        = (Except.ok (), ⟨[buildFFmpegArgs cfg0 sampleJob], []⟩, ⟨[]⟩) :=
  ⟨(C9_duplicate_returns_nil cfg0 okWorld ⟨[]⟩ sampleJob).1,
    (C9_duplicate_returns_nil cfg0 okWorld ⟨[]⟩ sampleJob).2 rfl rfl rfl⟩

/-! ## C1 — subprocess failure handling in processVideo -/

/-- A catalog holding exactly the freshly inserted Pending row for
`media/a.mp4`. -/
def pendingCatalog : Catalog :=
  ⟨[⟨1, "a.mp4", "media/a.mp4", 100, 0, VideoStatus.pending, none⟩], 2⟩

/-- `TranscodeToHLS` never writes a file itself (the variant playlist is
produced by the external subprocess). -/
theorem transcodeToHLS_writes_nil (cfg : GoConfig) (w : World) (st : TMState)
    (job : VideoJob) : (transcodeToHLS cfg w st job).2.1.writes = [] := by
  unfold transcodeToHLS
  by_cases hc : jobKeyOf job ∈ st.activeJobs
  · simp [hc, noEffects]
  · simp only [hc, if_false, decide_eq_true_eq]
    cases hm : w.mkdir (goFilepathDir job.outputPath) with
    | some e => simp [hc, hm, noEffects]
    | none => cases hf : w.ffmpeg (buildFFmpegArgs cfg job) <;> simp [hc, hm, hf]

/-- `TranscodeToHLS` returns the job registry exactly as it found it:
the deferred unmark cancels the mark on every sequential exit path. -/
theorem transcodeToHLS_state_id (cfg : GoConfig) (w : World) (st : TMState)
    (job : VideoJob) : (transcodeToHLS cfg w st job).2.2 = st := by
  unfold transcodeToHLS
  by_cases hc : jobKeyOf job ∈ st.activeJobs
  · simp [hc, noEffects]
  · simp only [hc, if_false, decide_eq_true_eq]
    cases hm : w.mkdir (goFilepathDir job.outputPath) with
    | some e => simp [hc, hm, noEffects]
    | none => cases hf : w.ffmpeg (buildFFmpegArgs cfg job) <;> simp [hc, hm, hf]

/-- C1 counterexample: the transcoding subprocess for the only configured
variant exits with status 1 and captured output `"codec not found"`, yet
processing the entry ends with status Ready (not Error), the stored
errorMessage is the empty string (the captured output reaches nothing),
and a MasterPlaylist for the entry IS written — referencing the variant
whose transcode just failed. -/
theorem C1_counterexample :
    (processVideo cfg0 failWorld ⟨[]⟩ pendingCatalog sampleVideo).1.rows
        = [⟨1, "a.mp4", "media/a.mp4", 100, 0, VideoStatus.ready, some ""⟩]
      ∧ (processVideo cfg0 failWorld ⟨[]⟩ pendingCatalog sampleVideo).2.2.invocations
        = [buildFFmpegArgs cfg0 sampleJob]
      ∧ failWorld.ffmpeg (buildFFmpegArgs cfg0 sampleJob)
        = ExecOutcome.fail "exit status 1" "codec not found"
      ∧ (processVideo cfg0 failWorld ⟨[]⟩ pendingCatalog sampleVideo).2.2.writes
        = [("cache/a/a.mp4.m3u8",
            "#EXTM3U\n#EXT-X-VERSION:3\n"
              ++ "#EXT-X-STREAM-INF:BANDWIDTH=2500000,RESOLUTION=1280x720,NAME=\"720p\"\n"
              ++ "a.mp4_720.m3u8\n")] := by
  refine ⟨rfl, rfl, rfl, rfl⟩

/-- C1 as amended: when the filesystem cooperates, `processVideo` ends
with status Ready and writes the master playlist whatever the subprocess
outcomes are — `PrepareVideo` only logs per-variant errors, so a failed
variant never reaches the catalog, and the Error transition is reachable
only through a directory-creation or playlist-write failure. -/
theorem C1_amended_always_ready (cfg : GoConfig) (f : List String → ExecOutcome)
    (st : TMState) (c : Catalog) (video : GoVideo) :
    (processVideo cfg (benignWorld f) st c video).1
        = setVideoReady (setVideoProcessing c video.id) video.id 0
      ∧ (goFilepathJoin (outputDirFor cfg video.path)
            (goFilepathBase (goFilepathBase video.path) ++ ".m3u8"),
          masterContent (goFilepathBase video.path) hlsQualities)
        ∈ (processVideo cfg (benignWorld f) st c video).2.2.writes := by
  unfold processVideo prepareVideo generateHLSMasterPlaylist
  simp [benignWorld, hlsQualities, mergeEffects, noEffects, transcodeToHLS_writes_nil]

/-! ## Scanner lemmas (C4, C5) -/

/-- `scanStep` leaves a catalog unchanged when the file's path is already
present. -/
theorem scanStep_of_exists (c : Catalog) (path name : String) (size : Int)
    (h : videoExists c path = true) : scanStep c path name size = c := by
  unfold scanStep
  cases hv : isVideoFile (goToLower (goFilepathExt name)) with
  | false => simp [hv]
  | true => simp [hv, h]

/-- `scanStep` preserves every path already in the catalog. -/
theorem scanStep_mem (c : Catalog) (path name : String) (size : Int) (p : String)
    (h : videoExists c p = true) : videoExists (scanStep c path name size) p = true := by
  unfold scanStep
  cases hv : isVideoFile (goToLower (goFilepathExt name)) with
  | false => simpa [hv] using h
  | true =>
    cases he : videoExists c path with
    | true => simpa [hv, he] using h
    | false =>
      unfold addVideo
      unfold videoExists at he h ⊢
      simp [hv, he, List.any_append]
      exact Or.inl (by simpa using h)

/-- After `scanStep` on a recognised video file, the file's path is in
the catalog (it either already was, or was just inserted). -/
theorem scanStep_adds (c : Catalog) (path name : String) (size : Int)
    (hv : isVideoFile (goToLower (goFilepathExt name)) = true) :
    videoExists (scanStep c path name size) path = true := by
  unfold scanStep
  cases he : videoExists c path with
  | true => simpa [hv] using he
  | false =>
    unfold addVideo
    unfold videoExists at he ⊢
    simp [hv, he, List.any_append]

mutual
/-- Walking a node only adds paths: every path present before is present
after. -/
theorem walkNode_grows (fullPath : String) (n : FSNode) (c : Catalog) (p : String)
    (h : videoExists c p = true) : videoExists (walkNode fullPath n c).2 p = true :=
  match n with
  | FSNode.file name size err => by
    cases err with
    | some e => simpa [walkNode] using h
    | none => simpa [walkNode] using scanStep_mem c fullPath name size p h
  | FSNode.dir name err children => by
    cases err with
    | some e => simpa [walkNode] using h
    | none =>
      simpa [walkNode] using walkList_grows fullPath children c p h

/-- Walking a child list only adds paths. -/
theorem walkList_grows (dirPath : String) (children : FSList) (c : Catalog)
    (p : String) (h : videoExists c p = true) :
    videoExists (walkList dirPath children c).2 p = true :=
  match children with
  | FSList.nil => by simpa [walkList] using h
  | FSList.cons hd tl => by
    have hhd := walkNode_grows (goFilepathJoin dirPath (FSNode.name hd)) hd c p h
    rw [walkList]
    rcases hw : walkNode (goFilepathJoin dirPath (FSNode.name hd)) hd c with ⟨e1, c1⟩
    rw [hw] at hhd
    cases e1 with
    | some e => simpa using hhd
    | none => simpa using walkList_grows dirPath tl c1 p hhd
end

mutual
/-- Re-walking a node from any catalog that contains every path the
first walk ended with reproduces the first walk's error and changes
nothing: every insert the first walk managed is skipped by the
`VideoExists` check the second time around. -/
theorem walkNode_rerun (fullPath : String) (n : FSNode) (c c' : Catalog)
    (h : ∀ p, videoExists (walkNode fullPath n c).2 p = true → videoExists c' p = true) :
    walkNode fullPath n c' = ((walkNode fullPath n c).1, c') :=
  match n with
  | FSNode.file name size err => by
    cases err with
    | some e => simp [walkNode]
    | none =>
      simp only [walkNode]
      cases hv : isVideoFile (goToLower (goFilepathExt name)) with
      | false =>
        have h1 : scanStep c' fullPath name size = c' := by
          unfold scanStep
          simp [hv]
        have h2 : scanStep c fullPath name size = c := by
          unfold scanStep
          simp [hv]
        simp [h1, h2]
      | true =>
        have hmem : videoExists c' fullPath = true := by
          apply h
          simp [walkNode]
          exact scanStep_adds c fullPath name size hv
        simp [scanStep_of_exists c' fullPath name size hmem]
  | FSNode.dir name err children => by
    cases err with
    | some e => simp [walkNode]
    | none =>
      simp only [walkNode]
      exact walkList_rerun fullPath children c c' (by simpa [walkNode] using h)

/-- Re-walking a child list, same statement. -/
theorem walkList_rerun (dirPath : String) (children : FSList) (c c' : Catalog)
    (h : ∀ p, videoExists (walkList dirPath children c).2 p = true →
      videoExists c' p = true) :
    walkList dirPath children c' = ((walkList dirPath children c).1, c') :=
  match children with
  | FSList.nil => by simp [walkList]
  | FSList.cons hd tl => by
    rw [walkList, walkList]
    rcases hw : walkNode (goFilepathJoin dirPath (FSNode.name hd)) hd c with ⟨e1, c1⟩
    cases e1 with
    | some e =>
      have h' : ∀ p, videoExists (walkNode (goFilepathJoin dirPath (FSNode.name hd)) hd c).2 p = true →
          videoExists c' p = true := by
        intro p hp
        apply h
        rw [walkList, hw]
        rw [hw] at hp
        exact hp
      have := walkNode_rerun (goFilepathJoin dirPath (FSNode.name hd)) hd c c' h'
      rw [hw] at this
      rw [this]
    | none =>
      have hgrow : ∀ p, videoExists c1 p = true →
          videoExists (walkList dirPath tl c1).2 p = true := fun p hp =>
        walkList_grows dirPath tl c1 p hp
      have hlist : ∀ p, videoExists (walkList dirPath tl c1).2 p = true →
          videoExists c' p = true := by
        intro p hp
        apply h
        rw [walkList, hw]
        exact hp
      have h' : ∀ p, videoExists (walkNode (goFilepathJoin dirPath (FSNode.name hd)) hd c).2 p = true →
          videoExists c' p = true := by
        intro p hp
        rw [hw] at hp
        exact hlist p (hgrow p hp)
      have hn := walkNode_rerun (goFilepathJoin dirPath (FSNode.name hd)) hd c c' h'
      rw [hw] at hn
      rw [hn]
      exact walkList_rerun dirPath tl c1 c' hlist
end

mutual
/-- A node is clean when no node in its subtree carries a walk error. -/
def treeClean : FSNode → Bool
  | FSNode.file _ _ err => err.isNone
  | FSNode.dir _ err children => err.isNone && listClean children

/-- Cleanliness of a child list. -/
def listClean : FSList → Bool
  | FSList.nil => true
  | FSList.cons hd tl => treeClean hd && listClean tl
end

mutual
/-- The walk of a node succeeds exactly when its subtree carries no walk
error: the callback propagates every error it is handed, and nothing
else produces one (catalog failures are swallowed). -/
theorem walkNode_err_iff (fullPath : String) (n : FSNode) (c : Catalog) :
    ((walkNode fullPath n c).1 = none ↔ treeClean n = true) :=
  match n with
  | FSNode.file name size err => by
    cases err with
    | some e => simp [walkNode, treeClean]
    | none => simp [walkNode, treeClean]
  | FSNode.dir name err children => by
    cases err with
    | some e => simp [walkNode, treeClean]
    | none =>
      simp only [walkNode, treeClean, Option.isNone_none, Bool.true_and]
      exact walkList_err_iff fullPath children c

/-- The walk of a child list succeeds exactly when every child subtree
is clean. -/
theorem walkList_err_iff (dirPath : String) (children : FSList) (c : Catalog) :
    ((walkList dirPath children c).1 = none ↔ listClean children = true) :=
  match children with
  | FSList.nil => by simp [walkList, listClean]
  | FSList.cons hd tl => by
    rw [walkList]
    rcases hw : walkNode (goFilepathJoin dirPath (FSNode.name hd)) hd c with ⟨e1, c1⟩
    have hnode := walkNode_err_iff (goFilepathJoin dirPath (FSNode.name hd)) hd c
    rw [hw] at hnode
    cases e1 with
    | some e =>
      have hclean : treeClean hd = false := by
        rcases hc : treeClean hd with _ | _
        · rfl
        · exact absurd (hnode.mpr hc) (by simp)
      simp [listClean, hclean]
    | none =>
      have hclean : treeClean hd = true := hnode.mp rfl
      simp only [listClean, hclean, Bool.true_and]
      exact walkList_err_iff dirPath tl c1
end

/-! ## C4 — walk failures abort the scan -/

/-- C4 counterexample: the root directory is readable, one file inside
fails to stat, and the whole scan returns that error — a readable video
file listed after the failing one is never inserted. The claim's
"logged and skipped, scan still completes" does not hold. -/
theorem C4_counterexample :
    scanLibrary cfg0 errTree emptyCatalog = (some "permission denied", emptyCatalog)
      ∧ videoExists (scanLibrary cfg0 errTree emptyCatalog).2 "media/b.mp4" = false := by
  refine ⟨rfl, rfl⟩

/-- C4 as amended: a scan fails as a whole not only when the root media
directory is unreadable but whenever any node of the tree reports a walk
error — the callback returns the error, aborting the walk. The scan
succeeds exactly when the whole tree is readable; only catalog
exists-check and insert failures on individual files are logged and
skipped. -/
theorem C4_amended_scan_error (cfg : GoConfig) (root : FSNode) (c : Catalog) :
    (scanLibrary cfg root c).1 = none ↔ treeClean root = true :=
  walkNode_err_iff cfg.mediaDir root c

/-! ## C5 — scanner idempotence -/

/-- C5: scanning an unchanged tree a second time returns the same result
(same error, if any) and leaves the catalog exactly as the first scan
left it: every path the first scan inserted makes the second scan's
`VideoExists` check skip the insert. -/
theorem C5_scan_idempotent (cfg : GoConfig) (root : FSNode) (c : Catalog) :
    scanLibrary cfg root ((scanLibrary cfg root c).2) = scanLibrary cfg root c := by
  unfold scanLibrary
  rw [walkNode_rerun cfg.mediaDir root c ((walkNode cfg.mediaDir root c).2)
    (fun p hp => hp)]

/-! ## C2 — master playlist structure -/

/-- The tag opening each stream-info line of the master playlist. -/
def streamInfMarker : String := "#EXT-X-STREAM-INF:"

/-- The stream-info line `GenerateHLSMasterPlaylist` emits for one
quality. -/
def streamInfLineOf (q : Quality) : String :=
  "#EXT-X-STREAM-INF:BANDWIDTH=" ++ toString (bandwidthBpsOf q.bitrate)
    ++ ",RESOLUTION=" ++ q.width ++ "x" ++ q.height
    ++ ",NAME=\"" ++ q.height ++ "p\""

/-- The variant-playlist path line `GenerateHLSMasterPlaylist` emits for
one quality. -/
def variantLineOf (videoFile : String) (q : Quality) : String :=
  goFilepathBase videoFile ++ "_" ++ q.height ++ ".m3u8"

/-- The master playlist as a list of lines: the two header lines, then
one stream-info line and one variant path line per quality, in order. -/
def masterLines (videoFile : String) (qualities : List Quality) : List String :=
  "#EXTM3U" :: "#EXT-X-VERSION:3"
    :: qualities.flatMap (fun q => [streamInfLineOf q, variantLineOf videoFile q])

/-- Newline-terminated text of a list of lines. -/
def textOfLines (ls : List String) : String :=
  ls.foldr (fun l acc => l ++ "\n" ++ acc) ""

/-- A line carrying a stream-info tag. -/
def isStreamInfLine (l : String) : Bool :=
  streamInfMarker.data.isPrefixOf l.data

/-- `textOfLines` distributes over concatenation of line lists. -/
theorem textOfLines_append (a b : List String) :
    textOfLines (a ++ b) = textOfLines a ++ textOfLines b := by
  induction a with
  | nil => simp [textOfLines]
  | cons l ls ih =>
    simp only [textOfLines, List.foldr_cons, List.cons_append] at ih ⊢
    rw [ih]
    apply String.ext
    simp [String.data_append]

/-- The playlist text `masterContent` builds is exactly the
newline-terminated join of `masterLines`. -/
theorem masterContent_eq_lines (v : String) (qs : List Quality) :
    masterContent v qs = textOfLines (masterLines v qs) := by
  have aux : ∀ (qs : List Quality) (acc : String),
      qs.foldl
        (fun acc q =>
          acc
            ++ ("#EXT-X-STREAM-INF:BANDWIDTH=" ++ toString (bandwidthBpsOf q.bitrate)
              ++ ",RESOLUTION=" ++ q.width ++ "x" ++ q.height
              ++ ",NAME=\"" ++ q.height ++ "p\"" ++ "\n")
            ++ (goFilepathBase v ++ "_" ++ q.height ++ ".m3u8" ++ "\n")) acc
        = acc ++ textOfLines (qs.flatMap
            (fun q => [streamInfLineOf q, variantLineOf v q])) := by
    intro qs
    induction qs with
    | nil => intro acc; simp [textOfLines]
    | cons q rest ih =>
      intro acc
      rw [List.foldl_cons, ih, List.flatMap_cons, textOfLines_append]
      apply String.ext
      simp [textOfLines, streamInfLineOf, variantLineOf, String.data_append]
  rw [masterContent, aux]
  apply String.ext
  simp [masterLines, textOfLines, String.data_append]

/-- Every stream-info line starts with the stream-info tag. -/
theorem isStreamInfLine_streamInf (q : Quality) :
    isStreamInfLine (streamInfLineOf q) = true := by
  unfold isStreamInfLine
  rw [List.isPrefixOf_iff_prefix]
  have h : (streamInfLineOf q).data
      = streamInfMarker.data
        ++ ("BANDWIDTH=" ++ toString (bandwidthBpsOf q.bitrate)
          ++ ",RESOLUTION=" ++ q.width ++ "x" ++ q.height
          ++ ",NAME=\"" ++ q.height ++ "p\"").data := by
    simp only [streamInfLineOf, streamInfMarker, String.data_append]
    rfl
  rw [h]
  exact List.prefix_append _ _

/-- A line whose first character is not `#` carries no stream-info tag. -/
theorem isStreamInfLine_false_of_head (l : String) (h : l.data.head? ≠ some '#') :
    isStreamInfLine l = false := by
  unfold isStreamInfLine
  cases hl : l.data with
  | nil => rfl
  | cons c rest =>
    rw [hl] at h
    have hc : ('#' == c) = false := by
      simp only [List.head?_cons, ne_eq, Option.some.injEq] at h
      simp [beq_eq_false_iff_ne]
      exact fun he => h he.symm
    show (streamInfMarker.data.isPrefixOf (c :: rest)) = false
    simp only [streamInfMarker]
    show (('#' :: "EXT-X-STREAM-INF:".data).isPrefixOf (c :: rest)) = false
    simp [List.isPrefixOf, hc]

/-- Counting stream-info lines in the per-quality blocks: one per
quality, provided no variant path line itself begins with the tag. -/
theorem count_streamInf_blocks (v : String) (qs : List Quality)
    (hvar : ∀ q ∈ qs, isStreamInfLine (variantLineOf v q) = false) :
    ((qs.flatMap (fun q => [streamInfLineOf q, variantLineOf v q])).filter
        isStreamInfLine).length = qs.length := by
  induction qs with
  | nil => rfl
  | cons q rest ih =>
    have hq := hvar q (List.mem_cons_self q rest)
    have hrest : ∀ q' ∈ rest, isStreamInfLine (variantLineOf v q') = false :=
      fun q' hq' => hvar q' (List.mem_cons_of_mem q hq')
    rw [List.flatMap_cons]
    simp only [List.filter_append, List.length_append, List.filter_cons,
      isStreamInfLine_streamInf q, hq, List.filter_nil]
    rw [ih hrest]
    simp [Nat.add_comm]

/-- C2 counterexample: the subprocess for the only configured variant is
invoked once and fails, yet `PrepareVideo` writes the master playlist
containing exactly one stream-info line — the one for the variant whose
job just failed (the claim requires zero for failed variants), and no
output-existence check exists to prevent it. -/
theorem C2_counterexample :
    (prepareVideo cfg0 failWorld ⟨[]⟩ "media/a.mp4").2.1.invocations
        = [buildFFmpegArgs cfg0 sampleJob]
      ∧ failWorld.ffmpeg (buildFFmpegArgs cfg0 sampleJob)
        = ExecOutcome.fail "exit status 1" "codec not found"
      ∧ (prepareVideo cfg0 failWorld ⟨[]⟩ "media/a.mp4").2.1.writes
        = [("cache/a/a.mp4.m3u8", masterContent "a.mp4" hlsQualities)]
      ∧ ((masterLines "a.mp4" hlsQualities).filter isStreamInfLine).length = 1 := by
  refine ⟨rfl, rfl, rfl, by decide⟩

/-- C2 as amended: the master playlist always contains exactly one
stream-info line and one variant-playlist path line per CONFIGURED
variant — `GenerateHLSMasterPlaylist` receives no per-variant success
information and `PrepareVideo` performs no existence check on the
variant playlists before folding them in (the embedding gives the
generator the full configured quality list and no filesystem read,
because the source does exactly that). The hypothesis only excludes
degenerate file names that would make a variant path line itself start
with the stream-info tag. -/
theorem C2_amended_configured_variants (v : String) (qs : List Quality)
    (hvar : ∀ q ∈ qs, isStreamInfLine (variantLineOf v q) = false) :
    masterContent v qs = textOfLines (masterLines v qs)
      ∧ ((masterLines v qs).filter isStreamInfLine).length = qs.length
      ∧ ∀ q ∈ qs, streamInfLineOf q ∈ masterLines v qs
          ∧ variantLineOf v q ∈ masterLines v qs := by
  refine ⟨masterContent_eq_lines v qs, ?_, ?_⟩
  · unfold masterLines
    simp only [List.filter_cons]
    have h1 : isStreamInfLine "#EXTM3U" = false := by decide
    have h2 : isStreamInfLine "#EXT-X-VERSION:3" = false := by decide
    simp only [h1, h2, if_false]
    exact count_streamInf_blocks v qs hvar
  · intro q hq
    constructor
    · unfold masterLines
      refine List.mem_cons_of_mem _ (List.mem_cons_of_mem _ ?_)
      exact List.mem_flatMap.mpr ⟨q, hq, by simp⟩
    · unfold masterLines
      refine List.mem_cons_of_mem _ (List.mem_cons_of_mem _ ?_)
      exact List.mem_flatMap.mpr ⟨q, hq, by simp⟩

/-- Witness for C2 as amended, at the configured quality list and the
sample file name. -/
theorem C2_amended_configured_variants_witness :
    (∀ q ∈ hlsQualities, isStreamInfLine (variantLineOf "a.mp4" q) = false)
      ∧ (masterContent "a.mp4" hlsQualities
          = textOfLines (masterLines "a.mp4" hlsQualities)
        ∧ ((masterLines "a.mp4" hlsQualities).filter isStreamInfLine).length
          = hlsQualities.length
        ∧ ∀ q ∈ hlsQualities, streamInfLineOf q ∈ masterLines "a.mp4" hlsQualities
            ∧ variantLineOf "a.mp4" q ∈ masterLines "a.mp4" hlsQualities) :=
  ⟨by decide, C2_amended_configured_variants "a.mp4" hlsQualities (by decide)⟩

/-! ## C8 — the subprocess argument contract -/

/-- A string longer than four characters is neither of the two optional
flag tokens. -/
theorem ne_flag_of_length (s : String) (h : 4 < s.length) :
    s ≠ "-vf" ∧ s ≠ "-b:v" := by
  constructor <;> (intro he; rw [he] at h; revert h; decide)

/-- The rendered scale filter is never mistaken for a flag token. -/
theorem scale_ne_flag (w h : String) :
    ("scale=" ++ w ++ ":" ++ h) ≠ "-vf" ∧ ("scale=" ++ w ++ ":" ++ h) ≠ "-b:v" := by
  apply ne_flag_of_length
  have h6 : ("scale=" : String).length = 6 := rfl
  have h1 : (":" : String).length = 1 := rfl
  simp only [String.length_append, h6, h1]
  omega

/-- The rendered segment-filename pattern is never mistaken for a flag
token. -/
theorem pattern_ne_flag (x : String) :
    (x ++ "%03d.ts") ≠ "-vf" ∧ (x ++ "%03d.ts") ≠ "-b:v" := by
  apply ne_flag_of_length
  have h7 : ("%03d.ts" : String).length = 7 := rfl
  simp only [String.length_append, h7]
  omega

/-- The two fixed HLS argument pairs sit inside the constant tail that
`TranscodeToHLS` appends last, whatever the optional blocks were. -/
theorem hls_tail_pairs (front : List String) (a b c d e : String) :
    ["-hls_playlist_type", "event"]
        <:+: front ++ ["-f", "hls", "-hls_time", a, "-hls_segment_type", b,
          "-hls_list_size", c, "-hls_playlist_type", "event",
          "-hls_segment_filename", d, e]
      ∧ ["-hls_segment_filename", d]
        <:+: front ++ ["-f", "hls", "-hls_time", a, "-hls_segment_type", b,
          "-hls_list_size", c, "-hls_playlist_type", "event",
          "-hls_segment_filename", d, e] := by
  constructor
  · exact ⟨front ++ ["-f", "hls", "-hls_time", a, "-hls_segment_type", b,
      "-hls_list_size", c], [("-hls_segment_filename" : String), d, e], by simp⟩
  · exact ⟨front ++ ["-f", "hls", "-hls_time", a, "-hls_segment_type", b,
      "-hls_list_size", c, "-hls_playlist_type", "event"], [e], by simp⟩

/-- C8: in the subprocess argument list, the scale filter pair appears
exactly when both dimensions are positive, the video-bitrate flag
appears exactly when the bitrate label is non-empty, the playlist mode
is always fixed to `event`, and the segment-filename pattern always
carries the zero-padded 3-digit `%03d` sequence counter. The hypothesis
only rules out configuration strings that collide with the two optional
flag tokens themselves. -/
theorem C8_ffmpeg_args (cfg : GoConfig) (job : VideoJob)
    (hclean : ∀ s ∈ [job.sourceFile, cfg.transcodePreset, job.bitrate,
      cfg.segmentFormat, job.outputPath, toString job.segmentDuration,
      toString cfg.playlistEntries], s ≠ "-vf" ∧ s ≠ "-b:v") :
    (("-vf" ∈ buildFFmpegArgs cfg job) ↔ (0 < job.width ∧ 0 < job.height))
      ∧ (("-b:v" ∈ buildFFmpegArgs cfg job) ↔ job.bitrate ≠ "")
      ∧ ["-hls_playlist_type", "event"] <:+: buildFFmpegArgs cfg job
      ∧ ["-hls_segment_filename",
          goTrimSuffix job.outputPath ".m3u8" ++ "%03d.ts"]
        <:+: buildFFmpegArgs cfg job := by
  have hsrc := hclean job.sourceFile (by simp)
  have hpre := hclean cfg.transcodePreset (by simp)
  have hbit := hclean job.bitrate (by simp)
  have hfmt := hclean cfg.segmentFormat (by simp)
  have hout := hclean job.outputPath (by simp)
  have hdur := hclean (toString job.segmentDuration) (by simp)
  have hpl := hclean (toString cfg.playlistEntries) (by simp)
  have hsc := scale_ne_flag (toString job.width) (toString job.height)
  have hpat := pattern_ne_flag (goTrimSuffix job.outputPath ".m3u8")
  refine ⟨?_, ?_, ?_, ?_⟩
  · constructor
    · intro hmem
      by_cases hwh : 0 < job.width ∧ 0 < job.height
      · exact hwh
      · exact absurd hmem (by
          by_cases hbe : job.bitrate = "" <;>
            simp [buildFFmpegArgs, hwh, hbe, Ne.symm hsrc.1, Ne.symm hpre.1,
              Ne.symm hbit.1, Ne.symm hfmt.1, Ne.symm hout.1, Ne.symm hdur.1,
              Ne.symm hpl.1, Ne.symm hpat.1, Ne.symm hsc.1])
    · intro hwh
      by_cases hbe : job.bitrate = "" <;>
        simp [buildFFmpegArgs, hwh.1, hwh.2, hbe]
  · constructor
    · intro hmem
      by_cases hbe : job.bitrate = ""
      · exact absurd hmem (by
          by_cases hwh : 0 < job.width ∧ 0 < job.height <;>
            simp [buildFFmpegArgs, hwh, hbe, Ne.symm hsrc.2, Ne.symm hpre.2,
              Ne.symm hbit.2, Ne.symm hfmt.2, Ne.symm hout.2, Ne.symm hdur.2,
              Ne.symm hpl.2, Ne.symm hpat.2, Ne.symm hsc.2])
      · exact hbe
    · intro hbe
      by_cases hwh : 0 < job.width ∧ 0 < job.height <;>
        simp [buildFFmpegArgs, hwh, hbe]
  · unfold buildFFmpegArgs
    exact (hls_tail_pairs _ _ _ _ _ _).1
  · unfold buildFFmpegArgs
    exact (hls_tail_pairs _ _ _ _ _ _).2

/-- Witness for C8 at the 720p sample job under the default
configuration (all collision hypotheses discharged by evaluation). -/
theorem C8_ffmpeg_args_witness :
    (∀ s ∈ [sampleJob.sourceFile, cfg0.transcodePreset, sampleJob.bitrate,
      cfg0.segmentFormat, sampleJob.outputPath, toString sampleJob.segmentDuration,
      toString cfg0.playlistEntries], s ≠ "-vf" ∧ s ≠ "-b:v")
      ∧ ((("-vf" ∈ buildFFmpegArgs cfg0 sampleJob)
            ↔ (0 < sampleJob.width ∧ 0 < sampleJob.height))
        ∧ (("-b:v" ∈ buildFFmpegArgs cfg0 sampleJob) ↔ sampleJob.bitrate ≠ "")
        ∧ ["-hls_playlist_type", "event"] <:+: buildFFmpegArgs cfg0 sampleJob
        ∧ ["-hls_segment_filename",
            goTrimSuffix sampleJob.outputPath ".m3u8" ++ "%03d.ts"]
          <:+: buildFFmpegArgs cfg0 sampleJob) :=
  ⟨by decide, C8_ffmpeg_args cfg0 sampleJob (by decide)⟩
